import Mathlib

/-!
Verification of the guider repository's core pipeline: the markdown text
builder (src/utils/md.ts), the generic guide filtering and rule formatting
(src/guide.ts), and the Dark Souls III instruction formatter and table
assembly (src/modules/dark-souls-3.ts).  All definitions are shallow
embeddings of the TypeScript source; strings are modelled by Lean `String`,
JS numbers that hold counts or rule ids by `Nat`, and JS `undefined` by
`Option`.
-/

namespace Guider

/-- JS `Array.prototype.join(sep)`: concatenation with `sep` between
consecutive elements, empty string for the empty array. -/
def joinSep (sep : String) : List String → String
  | [] => ""
  | [a] => a
  | a :: b :: rest => a ++ sep ++ joinSep sep (b :: rest)

/-! ## Markdown text builder (src/utils/md.ts) -/

/-- `padL`: append spaces up to `width` (left-aligns the text). -/
def padL (text : String) (width : Nat) : String :=
  text ++ String.mk (List.replicate (width - text.length) ' ')

/-- `padR`: prepend spaces up to `width` (right-aligns the text). -/
def padR (text : String) (width : Nat) : String :=
  String.mk (List.replicate (width - text.length) ' ') ++ text

/-- `padC`: split the padding, ceiling on the left, floor on the right. -/
def padC (text : String) (width : Nat) : String :=
  String.mk (List.replicate ((width - text.length + 1) / 2) ' ') ++ text ++
    String.mk (List.replicate ((width - text.length) / 2) ' ')

inductive Alignment where
  | left
  | center
  | right
deriving DecidableEq, Repr

/-- `pad(text, width, alignment)` from md.ts. -/
def pad (text : String) (width : Nat) : Alignment → String
  | .right => padR text width
  | .left => padL text width
  | .center => padC text width

namespace MD

/-- `MD.bi`: bold italic, nothing around empty text. -/
def bi (text : String) : String :=
  if text = "" then "" else "***" ++ text ++ "***"

/-- `MD.b`: bold, nothing around empty text. -/
def b (text : String) : String :=
  if text = "" then "" else "**" ++ text ++ "**"

/-- `MD.i`: italic, nothing around empty text. -/
def i (text : String) : String :=
  if text = "" then "" else "_" ++ text ++ "_"

/-- `MD.s`: strikethrough, nothing around empty text. -/
def s (text : String) : String :=
  if text = "" then "" else "~~" ++ text ++ "~~"

end MD

structure MDTableColumn where
  title : String
  alignment : Alignment
deriving DecidableEq, Repr

/-- `MD.end()`: blocks joined by a blank line. -/
def mdEnd (blocks : List String) : String :=
  joinSep "\n\n" blocks

/-- `MD.ordered`: one block, items numbered from 1. -/
def mdOrdered (texts : List String) : String :=
  joinSep "\n" (texts.enum.map (fun p => toString (p.1 + 1) ++ ". " ++ p.2))

/-- `MD.unordered`: one block, items bulleted. -/
def mdUnordered (texts : List String) : String :=
  joinSep "\n" (texts.map (fun text => "- " ++ text))

def defaultColumn : MDTableColumn := ⟨"", Alignment.left⟩

/-- The body of `MD.table` for a non-empty column list: reconciles the
column count, extends short rows with empty cells, computes column widths
(max of title length, widest cell, and minimum 3), and emits the header
line, the alignment-marker line and one line per row, joined by `\n`. -/
def tableBlock (columns : List MDTableColumn) (rows : List (List String)) : String :=
  let columnCount := (rows.map List.length).foldl max columns.length
  let cols := (List.range columnCount).map (fun j => columns.getD j defaultColumn)
  let cells := rows.map (fun row => (List.range columnCount).map (fun j => row.getD j ""))
  let widths := (List.range columnCount).map (fun j =>
    cells.foldl (fun w row => max w (row.getD j "").length)
      (max (columns.getD j defaultColumn).title.length 3))
  let header := "| " ++
    joinSep " | " ((cols.zip widths).map (fun p => padL p.1.title p.2)) ++ " |"
  let markers := "| " ++
    joinSep " | " ((cols.zip widths).map (fun p =>
      (if p.1.alignment = Alignment.center then ":" else "-") ++
        String.mk (List.replicate (p.2 - 2) '-') ++
        (if p.1.alignment = Alignment.left then "-" else ":"))) ++ " |"
  let dataLines := cells.map (fun row =>
    "| " ++
      joinSep " | " ((row.zip (cols.zip widths)).map (fun p =>
        pad p.1 p.2.2 p.2.1.alignment)) ++ " |")
  joinSep "\n" (header :: markers :: dataLines)

/-- `MD.table`: pushes no block when the column list is empty, otherwise
pushes the rendered table block. -/
def mdTable (columns : List MDTableColumn) (rows : List (List String)) : List String :=
  if columns.isEmpty then [] else [tableBlock columns rows]

/-! ## Format options and the generic guide (src/guide.ts) -/

structure FormatOptions where
  collapseInstructionGroups : Bool
  hideComments : Bool
  hideInstructionId : Bool
  hideOptional : Bool
  hideSafety : Bool
  ignoredRules : List Nat
deriving DecidableEq, Repr

def defaultFormatOptions : FormatOptions :=
  { collapseInstructionGroups := false
    hideComments := false
    hideInstructionId := false
    hideOptional := false
    hideSafety := false
    ignoredRules := [] }

/-! ## Dark Souls III instruction model (src/modules/dark-souls-3.ts) -/

/-- An item: `{ name, quantity }`, quantity defaulting to 1 at parse time. -/
structure Item where
  name : String
  quantity : Nat
deriving DecidableEq, Repr

/-- The `from`/`to` enum of the allot-estus variant. -/
inductive EstusKind where
  | ashen
  | normal
deriving DecidableEq, Repr

/-- The literal string value carried by an `EstusKind`. -/
def EstusKind.text : EstusKind → String
  | .ashen => "ashen"
  | .normal => "normal"

/-- The allot-estus quantity: the literal `"all"` or a number. -/
inductive AllotQuantity where
  | all
  | num (n : Nat)
deriving DecidableEq, Repr

/-- JS string interpolation of an allot-estus quantity. -/
def AllotQuantity.text : AllotQuantity → String
  | .all => "all"
  | .num n => toString n

/-- Modelled from the zod schema `quantity: z.union([z.literal("all"),
z.number().min(1)]).default("all")`: an absent quantity parses to `"all"`. -/
def parseAllotQuantity : Option AllotQuantity → AllotQuantity
  | some q => q
  | none => .all

/-- Modelled from the zod schema `amount: z.number().min(1).default(1)` of
the kill-lizards variant: an absent amount parses to the number 1. -/
def parseKillLizardsAmount : Option Nat → Nat
  | some n => n
  | none => 1

/-- The variant payload of a Dark Souls III instruction, one constructor per
`type` literal of the instruction schema union.  Reserved TypeScript/Lean
words are renamed (`from`/`to` → `src`/`dst`, `class` → `className`,
`where` → `place`); `z.number().optional()` and `z.string().optional()`
fields are `Option`s. -/
inductive Payload where
  | allotEstus (src dst : EstusKind) (quantity : AllotQuantity)
  | attuneSpells (spells : List String)
  | burnUndeadBoneShards (amount : Option Nat)
  | buyItems (items : List Item) (vendor : String)
  | castSpells (spells : List String)
  | changeEquipment (equip unequip : List String)
  | comment (text : String)
  | createCharacter (burialGift className : String)
  | fightBoss (boss : String) (items : List Item) (spells : List String)
  | grabItems (items : List Item) (place : String)
  | killLizards (amount : Nat) (rewards : List Item) (place : String)
  | lightBonfire (bonfire : String)
  | reinforceEstus (amount : Option Nat)
  | trade (item reward : String)
  | twoHand (weapon : String)
  | unlockShortcut (place : String)
  | upgradeWeapon (weapon : String) (level : Option Nat) (infusion : Option String)
  | useItems (items : List Item)
  | warp (bonfire : Option String) (usingItem : Option String)
deriving DecidableEq, Repr

/-- A Dark Souls III instruction: the generic envelope
(comments/visibility/flags, from guide.ts) intersected with the area and the
variant payload. -/
structure Instruction where
  area : String
  comments : List String := []
  hideOnIgnoredRules : List Nat := []
  showOnIgnoredRules : List Nat := []
  optional : Bool := false
  safety : Bool := false
  payload : Payload
deriving DecidableEq, Repr

/-- `capitalize`: uppercase the first character, keep the rest. -/
def capitalize (word : String) : String :=
  match word.data with
  | [] => ""
  | c :: cs => String.mk (c.toUpper :: cs)

/-- JS truthiness of an optional string: `undefined` and `""` are falsy. -/
def strTruthy : Option String → Bool
  | some text => text ≠ ""
  | none => false

/-- JS truthiness of an optional number: `undefined` and `0` are falsy. -/
def natTruthy : Option Nat → Bool
  | some n => n ≠ 0
  | none => false

/-- `mapItems`: comma-joined bold-italic names, ` (quantity)` appended only
when the quantity exceeds 1. -/
def mapItems (items : List Item) : String :=
  joinSep ", " (items.map (fun item =>
    if item.quantity > 1 then
      MD.bi item.name ++ " (" ++ toString item.quantity ++ ")"
    else
      MD.bi item.name))

/-- The inner `formatInstructionByType` switch of
`formatDarkSouls3Instruction`: one sentence template per payload variant. -/
def formatInstructionByType : Payload → String
  | .allotEstus src dst quantity =>
    let estus := if quantity = .num 1 then "Estus Flask" else "Estus Flasks"
    let srcText := MD.bi (capitalize src.text ++ " " ++ estus)
    let dstText := MD.bi (capitalize dst.text ++ " " ++ estus)
    "Allot " ++ quantity.text ++ " " ++ srcText ++ " to " ++ dstText
  | .attuneSpells spells =>
    "Attune " ++ joinSep ", " (spells.map MD.bi)
  | .burnUndeadBoneShards amount =>
    let amountText := match amount with
      | some n => toString n
      | none => "all"
    let shard := if amount = some 1 then "Undead Bone Shard" else "Undead Bone Shards"
    "Burn " ++ amountText ++ " " ++ MD.bi shard ++ " at the bonfire"
  | .buyItems items vendor =>
    "Buy " ++ mapItems items ++ " from " ++ vendor
  | .castSpells spells =>
    "Cast " ++ joinSep ", " (spells.map MD.bi)
  | .changeEquipment equip unequip =>
    let equips := joinSep ", " (equip.map MD.bi)
    let unequips := joinSep ", " (unequip.map MD.bi)
    let changes :=
      (if equips ≠ "" then ["equip " ++ equips] else []) ++
      (if unequips ≠ "" then ["unequip " ++ unequips] else [])
    capitalize (joinSep " and " changes)
  | .comment text => text
  | .createCharacter burialGift className =>
    "Choose " ++ MD.bi className ++ " class and " ++ MD.bi burialGift ++
      " burial gift"
  | .fightBoss boss items spells =>
    let fight := "Fight " ++ MD.bi boss
    let fight := if spells.length > 0 then
        fight ++ "<br>- Cast " ++ joinSep ", " (spells.map MD.i)
      else fight
    if items.length > 0 then
      fight ++ "<br>- Use " ++ joinSep ", " (items.map (fun item =>
        MD.i item.name ++ " (" ++ toString item.quantity ++ ")"))
    else fight
  | .grabItems items place =>
    if place ≠ "" then
      "Grab " ++ mapItems items ++ " " ++ place
    else
      "Grab " ++ mapItems items
  | .killLizards amount rewards place =>
    let lizards := if amount = 1 then "lizard" else toString amount ++ " lizards"
    "Kill " ++ lizards ++ " " ++ place ++ " for " ++ mapItems rewards
  | .lightBonfire bonfire =>
    "Light " ++ MD.bi bonfire ++ " bonfire"
  | .reinforceEstus amount =>
    let amountText := match amount with
      | some n => toString n
      | none => "all"
    let estus := if amount = some 1 then "Estus Flask" else "Estus Flasks"
    "Reinforce " ++ amountText ++ " " ++ MD.bi estus ++ " by " ++ MD.i "Andre"
  | .trade item reward =>
    "Trade a " ++ MD.bi item ++ " for a " ++ MD.bi reward ++ " with " ++
      MD.i "Pickle Pee"
  | .twoHand weapon =>
    "Two-hand " ++ MD.bi weapon
  | .unlockShortcut place =>
    "Unlock shortcut " ++ place
  | .upgradeWeapon weapon level infusion =>
    let weaponText := MD.bi weapon
    let infusionText := if strTruthy infusion then MD.i (infusion.getD "") else ""
    let levelText := if natTruthy level then "+" ++ toString (level.getD 0) else ""
    if infusionText ≠ "" ∧ levelText ≠ "" then
      "Infuse " ++ weaponText ++ " with " ++ infusionText ++
        " and upgrade to " ++ levelText
    else if infusionText ≠ "" then
      "Infuse " ++ weaponText ++ " with " ++ infusionText
    else if levelText ≠ "" then
      "Upgrade " ++ weaponText ++ " to " ++ levelText
    else
      "Upgrade " ++ weaponText
  | .useItems items =>
    "Use " ++ joinSep ", " (items.map (fun item =>
      MD.bi item.name ++ " (" ++ toString item.quantity ++ ")"))
  | .warp bonfire usingItem =>
    let usingText := if strTruthy usingItem then
        " using " ++ MD.bi (usingItem.getD "")
      else ""
    if strTruthy bonfire then
      "Warp to " ++ MD.bi (bonfire.getD "") ++ usingText
    else
      "Warp to last bonfire rested at" ++ usingText

/-- `formatDarkSouls3Instruction`: the variant sentence, prefixed by the
italic `[peachy]` marker when `safety` is set, else by the italic
`[optional]` marker when `optional` is set. -/
def formatDarkSouls3Instruction (instruction : Instruction) : String :=
  let formatted := formatInstructionByType instruction.payload
  if instruction.safety then
    MD.i "[peachy]" ++ " " ++ formatted
  else if instruction.optional then
    MD.i "[optional]" ++ " " ++ formatted
  else
    formatted

/-! ## Filtering and rule formatting (src/guide.ts) -/

/-- The predicate of `filterInstructions`: the four exclusion checks in
source order (hideOptional, hideSafety, showOnIgnoredRules,
hideOnIgnoredRules), each returning `false` when it fires. -/
def instructionVisible (options : FormatOptions) (instruction : Instruction) : Bool :=
  if options.hideOptional && instruction.optional then false
  else if options.hideSafety && instruction.safety then false
  else if instruction.showOnIgnoredRules.length > 0 &&
      instruction.showOnIgnoredRules.any (fun rule =>
        !(options.ignoredRules.contains rule)) then false
  else if instruction.hideOnIgnoredRules.length > 0 &&
      instruction.hideOnIgnoredRules.any (fun rule =>
        options.ignoredRules.contains rule) then false
  else true

/-- `filterInstructions`: keep the instructions the predicate admits,
preserving order. -/
def filterInstructions (instructions : List Instruction)
    (options : FormatOptions) : List Instruction :=
  instructions.filter (instructionVisible options)

/-- `formatComments` (guide.ts): empty when comments are hidden, otherwise
every comment appended as `<br>- comment`. -/
def formatComments (instruction : Instruction) (options : FormatOptions) : String :=
  if options.hideComments then ""
  else String.join (instruction.comments.map (fun comment => "<br>- " ++ comment))

/-- Insertion into a list of rule entries sorted by ascending id. -/
def insertRule (entry : Nat × String) : List (Nat × String) → List (Nat × String)
  | [] => [entry]
  | head :: rest =>
    if entry.1 < head.1 then entry :: head :: rest
    else head :: insertRule entry rest

/-- The ascending-id ordering of `Object.entries(this.rules)` followed by
the numeric comparator sort in `formatRules`. -/
def sortRules : List (Nat × String) → List (Nat × String)
  | [] => []
  | entry :: rest => insertRule entry (sortRules rest)

/-- `formatRules`: empty for an empty rule table, otherwise the Rules
section with an ordered list in which ignored rules are struck through. -/
def formatRules (rules : List (Nat × String)) (options : FormatOptions) : String :=
  let sorted := sortRules rules
  if sorted.isEmpty then ""
  else
    mdEnd ["## Rules", "The run includes the following restrictions:",
      mdOrdered (sorted.map (fun rule =>
        if options.ignoredRules.contains rule.1 then MD.s rule.2 else rule.2))]

/-! ## Instruction table assembly (src/modules/dark-souls-3.ts) -/

/-- One pre-collapse table row: the stringified index, the area, and the
formatted action line (the rows are always pushed as triples). -/
structure Row where
  id : String
  area : String
  action : String
deriving DecidableEq, Repr

/-- The row-building loop of `formatInstructions`: row `i` is
`[toString i, area, formatted line ++ comments]` over the visible list. -/
def buildRows (instructions : List Instruction) (options : FormatOptions) : List Row :=
  instructions.enum.map (fun p =>
    ⟨toString p.1, p.2.area,
      formatDarkSouls3Instruction p.2 ++ formatComments p.2 options⟩)

/-- The in-place fusion step of the collapse loop: the action of the second
row is appended to the first after a `<br><br>` separator; id and area of
the first row are kept. -/
def mergeRows (r1 r2 : Row) : Row :=
  ⟨r1.id, r1.area, r1.action ++ "<br><br>" ++ r2.action⟩

/-- The collapse `while` loop: walking left to right, a row whose area
equals the previous row's area is fused into it and removed. -/
def collapseRows : List Row → List Row
  | [] => []
  | [r] => [r]
  | r1 :: r2 :: rest =>
    if r1.area = r2.area then collapseRows (mergeRows r1 r2 :: rest)
    else r1 :: collapseRows (r2 :: rest)
termination_by rows => rows.length

/-- The column list of the instructions table: `[Id, Area, Action]`, the Id
column dropped when `hideInstructionId` is set. -/
def instructionColumns (options : FormatOptions) : List MDTableColumn :=
  if options.hideInstructionId then
    [⟨"Area", .left⟩, ⟨"Action", .left⟩]
  else
    [⟨"Id", .right⟩, ⟨"Area", .left⟩, ⟨"Action", .left⟩]

/-- The final `splice(0, 1)` pass: the id cell is dropped from every row
when `hideInstructionId` is set. -/
def rowCells (options : FormatOptions) (row : Row) : List String :=
  if options.hideInstructionId then [row.area, row.action]
  else [row.id, row.area, row.action]

/-- The cell matrix handed to `MD.table` by `formatInstructions`: visible
rows, optionally collapsed, with the id cell optionally dropped. -/
def instructionRows (instructions : List Instruction)
    (options : FormatOptions) : List (List String) :=
  let rows := buildRows (filterInstructions instructions options) options
  let rows := if options.collapseInstructionGroups then collapseRows rows else rows
  rows.map (rowCells options)

/-- `DarkSouls3Guide.formatInstructions`: the italic placeholder when no
instruction is visible, otherwise the Instructions section heading followed
by the table. -/
def formatInstructions (instructions : List Instruction)
    (options : FormatOptions) : String :=
  if (filterInstructions instructions options).isEmpty then
    MD.i "There are no instructions"
  else
    mdEnd ("## Instructions" ::
      mdTable (instructionColumns options) (instructionRows instructions options))

/-! ## Theorems -/

/-- Characterization of the visibility predicate: an instruction is kept
exactly when the hideOptional and hideSafety exclusions do not apply, every
`showOnIgnoredRules` id is ignored, and no `hideOnIgnoredRules` id is
ignored.  Note the last conjunct applies regardless of
`showOnIgnoredRules`. -/
lemma instructionVisible_iff (options : FormatOptions) (i : Instruction) :
    instructionVisible options i = true ↔
      ¬ (options.hideOptional = true ∧ i.optional = true) ∧
      ¬ (options.hideSafety = true ∧ i.safety = true) ∧
      (∀ r ∈ i.showOnIgnoredRules, r ∈ options.ignoredRules) ∧
      (∀ r ∈ i.hideOnIgnoredRules, r ∉ options.ignoredRules) := by
  simp only [instructionVisible, List.contains, Bool.and_eq_true,
    List.any_eq_true, Bool.not_eq_true', decide_eq_true_eq, List.elem_iff,
    Bool.not_eq_true]
  split_ifs with h1 h2 h3 h4 <;>
    (simp_all [List.length_pos, List.elem_eq_mem, decide_eq_false_iff_not];
      try aesop)

/-- C1 counterexample: an instruction whose single `showOnIgnoredRules` id 1
is ignored (so the show check is satisfied) and whose `hideOnIgnoredRules`
id 2 is also ignored is excluded by `filterInstructions` — the hide check is
not gated on `showOnIgnoredRules` being empty, contrary to the claim that
such an instruction is visible regardless of its `hideOnIgnoredRules`. -/
theorem show_satisfied_hide_ignored_excluded :
    ([1] : List Nat).all (fun r => ([1, 2] : List Nat).contains r) = true ∧
    instructionVisible
      { collapseInstructionGroups := false, hideComments := false,
        hideInstructionId := false, hideOptional := false,
        hideSafety := false, ignoredRules := [1, 2] }
      { area := "Firelink Shrine", comments := [], hideOnIgnoredRules := [2],
        showOnIgnoredRules := [1], optional := false, safety := false,
        payload := .comment "conditional step" } = false ∧
    filterInstructions
      [{ area := "Firelink Shrine", comments := [], hideOnIgnoredRules := [2],
         showOnIgnoredRules := [1], optional := false, safety := false,
         payload := .comment "conditional step" }]
      { collapseInstructionGroups := false, hideComments := false,
        hideInstructionId := false, hideOptional := false,
        hideSafety := false, ignoredRules := [1, 2] } = [] := by
  decide

/-- C1 (amended): `filterInstructions` keeps an instruction exactly when the
hideOptional and hideSafety exclusions do not fire, every
`showOnIgnoredRules` id is in `ignoredRules`, and no `hideOnIgnoredRules` id
is in `ignoredRules`; the hide exclusion applies unconditionally, so an
instruction whose non-empty `showOnIgnoredRules` is fully ignored is still
excluded whenever any of its `hideOnIgnoredRules` ids is ignored. -/
theorem filter_exclusion_structure (options : FormatOptions) (i : Instruction) :
    (instructionVisible options i = true ↔
      ¬ (options.hideOptional = true ∧ i.optional = true) ∧
      ¬ (options.hideSafety = true ∧ i.safety = true) ∧
      (∀ r ∈ i.showOnIgnoredRules, r ∈ options.ignoredRules) ∧
      (∀ r ∈ i.hideOnIgnoredRules, r ∉ options.ignoredRules)) ∧
    (∀ r ∈ i.hideOnIgnoredRules, r ∈ options.ignoredRules →
      instructionVisible options i = false) ∧
    filterInstructions [i] options =
      (if instructionVisible options i then [i] else []) := by
  refine ⟨instructionVisible_iff options i, fun r hr hrIgn => ?_, ?_⟩
  · rw [← Bool.not_eq_true, instructionVisible_iff]
    intro ⟨_, _, _, hHide⟩
    exact hHide r hr hrIgn
  · simp only [filterInstructions, List.filter]
    cases instructionVisible options i <;> simp

/-- Witness for `filter_exclusion_structure` at a concrete instruction. -/
theorem filter_exclusion_structure_witness :
    instructionVisible defaultFormatOptions
      { area := "A", comments := [], hideOnIgnoredRules := [3],
        showOnIgnoredRules := [], optional := false, safety := false,
        payload := .comment "step" } = true ∧
    instructionVisible { defaultFormatOptions with ignoredRules := [3] }
      { area := "A", comments := [], hideOnIgnoredRules := [3],
        showOnIgnoredRules := [], optional := false, safety := false,
        payload := .comment "step" } = false := by
  constructor
  · exact (filter_exclusion_structure defaultFormatOptions _).1.mpr
      (by decide)
  · exact (filter_exclusion_structure
      { defaultFormatOptions with ignoredRules := [3] } _).2.1 3
      (by decide) (by decide)

/-- C7: visibility is monotone in `ignoredRules` for hide-conditioned
instructions: an instruction excluded by the hide check stays excluded after
adding another of its listed ids to `ignoredRules`; and when no listed hide
id is ignored and no other exclusion reason applies, the instruction is
visible. -/
theorem hide_visibility_monotone (options : FormatOptions) (i : Instruction)
    (r : Nat) :
    (i.hideOnIgnoredRules.any (fun s => options.ignoredRules.contains s) = true →
      r ∈ i.hideOnIgnoredRules →
      instructionVisible
        { options with ignoredRules := r :: options.ignoredRules } i = false) ∧
    ((∀ s ∈ i.hideOnIgnoredRules, s ∉ options.ignoredRules) →
      ¬ (options.hideOptional = true ∧ i.optional = true) →
      ¬ (options.hideSafety = true ∧ i.safety = true) →
      (∀ s ∈ i.showOnIgnoredRules, s ∈ options.ignoredRules) →
      instructionVisible options i = true) := by
  constructor
  · intro hAny _
    rw [List.any_eq_true] at hAny
    obtain ⟨s, hsMem, hsIgn⟩ := hAny
    rw [List.elem_iff] at hsIgn
    rw [← Bool.not_eq_true, instructionVisible_iff]
    intro ⟨_, _, _, hHide⟩
    exact hHide s hsMem (List.mem_cons_of_mem r hsIgn)
  · intro hHide hOpt hSaf hShow
    exact (instructionVisible_iff options i).mpr ⟨hOpt, hSaf, hShow, hHide⟩

/-- Witness for `hide_visibility_monotone`: both parts applied at concrete
instructions and ignored-rule sets. -/
theorem hide_visibility_monotone_witness :
    instructionVisible { defaultFormatOptions with ignoredRules := [7, 5] }
      { area := "A", comments := [], hideOnIgnoredRules := [5, 7],
        showOnIgnoredRules := [], optional := false, safety := false,
        payload := .comment "step" } = false ∧
    instructionVisible { defaultFormatOptions with ignoredRules := [9] }
      { area := "A", comments := [], hideOnIgnoredRules := [5, 7],
        showOnIgnoredRules := [9], optional := false, safety := false,
        payload := .comment "step" } = true := by
  constructor
  · exact (hide_visibility_monotone
      { defaultFormatOptions with ignoredRules := [5] } _ 7).1
      (by decide) (by decide)
  · exact (hide_visibility_monotone
      { defaultFormatOptions with ignoredRules := [9] } _ 0).2
      (by decide) (by decide) (by decide) (by decide)

/-- C2 counterexample: a use-items instruction with a single item of
quantity 1 renders the parenthesized quantity ` (1)` after the emphasized
name, contrary to the claim that a quantity of exactly 1 renders the
emphasized name alone. -/
theorem use_items_quantity_one_suffix :
    formatInstructionByType (.useItems [⟨"Ember", 1⟩]) = "Use ***Ember*** (1)" ∧
    formatInstructionByType (.useItems [⟨"Ember", 1⟩]) ≠ "Use ***Ember***" := by
  decide

/-- C2 (amended): the variants rendered through `mapItems` (buy-items,
grab-items, kill-lizards rewards) suffix each emphasized item name with
` (quantity)` only when the quantity exceeds 1, but the use-items variant
and the auxiliary items sub-clause of fight-boss always append the
parenthesized quantity, including when it equals 1. -/
theorem item_quantity_rendering (items rewards : List Item)
    (vendor place boss name : String) (amount : Nat) :
    mapItems items = joinSep ", " (items.map (fun item =>
      if item.quantity > 1 then
        MD.bi item.name ++ " (" ++ toString item.quantity ++ ")"
      else MD.bi item.name)) ∧
    mapItems [⟨name, 1⟩] = MD.bi name ∧
    formatInstructionByType (.buyItems items vendor) =
      "Buy " ++ mapItems items ++ " from " ++ vendor ∧
    formatInstructionByType (.grabItems items place) =
      (if place ≠ "" then "Grab " ++ mapItems items ++ " " ++ place
       else "Grab " ++ mapItems items) ∧
    formatInstructionByType (.killLizards amount rewards place) =
      "Kill " ++ (if amount = 1 then "lizard" else toString amount ++ " lizards") ++
        " " ++ place ++ " for " ++ mapItems rewards ∧
    formatInstructionByType (.useItems items) =
      "Use " ++ joinSep ", " (items.map (fun item =>
        MD.bi item.name ++ " (" ++ toString item.quantity ++ ")")) ∧
    formatInstructionByType (.useItems [⟨name, 1⟩]) =
      "Use " ++ (MD.bi name ++ " (1)") ∧
    formatInstructionByType (.fightBoss boss items []) =
      (if items.length > 0 then
        "Fight " ++ MD.bi boss ++ "<br>- Use " ++ joinSep ", " (items.map (fun item =>
          MD.i item.name ++ " (" ++ toString item.quantity ++ ")"))
       else "Fight " ++ MD.bi boss) := by
  refine ⟨rfl, ?_, rfl, rfl, rfl, rfl, ?_, rfl⟩
  · simp [mapItems, joinSep]
  · show "Use " ++ (((MD.bi name ++ " (") ++ toString (1 : Nat)) ++ ")") =
      "Use " ++ (MD.bi name ++ " (1)")
    simp only [String.append_assoc]
    congr 1

/-- C5: at most one bracketed emphasized marker prefixes the formatted
line: a safety-flagged instruction gets the italic `[peachy]` marker (also
when it is optional, so safety takes precedence), an optional-only
instruction gets the italic `[optional]` marker, and an unflagged
instruction gets no marker. -/
theorem safety_marker_precedence (i : Instruction) :
    (MD.i "[peachy]" = "_[peachy]_" ∧ MD.i "[optional]" = "_[optional]_") ∧
    (i.safety = true →
      formatDarkSouls3Instruction i =
        MD.i "[peachy]" ++ " " ++ formatInstructionByType i.payload) ∧
    (i.safety = false → i.optional = true →
      formatDarkSouls3Instruction i =
        MD.i "[optional]" ++ " " ++ formatInstructionByType i.payload) ∧
    (i.safety = false → i.optional = false →
      formatDarkSouls3Instruction i = formatInstructionByType i.payload) := by
  refine ⟨⟨by decide, by decide⟩, ?_, ?_, ?_⟩
  · intro hs
    simp [formatDarkSouls3Instruction, hs]
  · intro hs ho
    simp [formatDarkSouls3Instruction, hs, ho]
  · intro hs ho
    simp [formatDarkSouls3Instruction, hs, ho]

/-- Witness for `safety_marker_precedence`: the three marker cases at
concrete instructions; the first has both flags set and shows `[peachy]`. -/
theorem safety_marker_precedence_witness :
    formatDarkSouls3Instruction
      { area := "A", comments := [], hideOnIgnoredRules := [],
        showOnIgnoredRules := [], optional := true, safety := true,
        payload := .comment "step" } =
      MD.i "[peachy]" ++ " " ++ formatInstructionByType (.comment "step") ∧
    formatDarkSouls3Instruction
      { area := "A", comments := [], hideOnIgnoredRules := [],
        showOnIgnoredRules := [], optional := true, safety := false,
        payload := .comment "step" } =
      MD.i "[optional]" ++ " " ++ formatInstructionByType (.comment "step") ∧
    formatDarkSouls3Instruction
      { area := "A", comments := [], hideOnIgnoredRules := [],
        showOnIgnoredRules := [], optional := false, safety := false,
        payload := .comment "step" } = formatInstructionByType (.comment "step") :=
  ⟨(safety_marker_precedence _).2.1 rfl,
   (safety_marker_precedence _).2.2.1 rfl rfl,
   (safety_marker_precedence _).2.2.2 rfl rfl⟩

/-- C6 counterexample: a kill-lizards instruction whose optional amount is
absent parses the amount to 1 (the schema default) and renders the singular
noun `lizard` — not the word `all` with the plural form as claimed. -/
theorem kill_lizards_absent_amount :
    parseKillLizardsAmount none = 1 ∧
    formatInstructionByType (.killLizards (parseKillLizardsAmount none)
        [⟨"Titanite Scale", 1⟩] "in Farron Keep") =
      "Kill lizard in Farron Keep for ***Titanite Scale***" := by
  decide

/-- C6 (amended): for allot-estus, burn-undead-bone-shards and
reinforce-estus, an amount of exactly 1 renders the singular noun and every
other value renders the plural, an absent amount rendering the literal word
`all` with the plural; for kill-lizards an amount of 1 renders the singular
`lizard` and other values the plural `lizards`, but an absent amount
defaults to 1 (singular), not to `all`. -/
theorem pluralization_boundary (n : Nat) (src dst : EstusKind)
    (rewards : List Item) (place : String) :
    (formatInstructionByType (.allotEstus src dst (.num 1)) =
      "Allot " ++ "1" ++ " " ++ MD.bi (capitalize src.text ++ " " ++ "Estus Flask") ++
        " to " ++ MD.bi (capitalize dst.text ++ " " ++ "Estus Flask")) ∧
    (n ≠ 1 → formatInstructionByType (.allotEstus src dst (.num n)) =
      "Allot " ++ toString n ++ " " ++
        MD.bi (capitalize src.text ++ " " ++ "Estus Flasks") ++ " to " ++
        MD.bi (capitalize dst.text ++ " " ++ "Estus Flasks")) ∧
    (formatInstructionByType (.allotEstus src dst (parseAllotQuantity none)) =
      "Allot " ++ "all" ++ " " ++ MD.bi (capitalize src.text ++ " " ++ "Estus Flasks") ++
        " to " ++ MD.bi (capitalize dst.text ++ " " ++ "Estus Flasks")) ∧
    (formatInstructionByType (.burnUndeadBoneShards (some 1)) =
      "Burn 1 ***Undead Bone Shard*** at the bonfire") ∧
    (n ≠ 1 → formatInstructionByType (.burnUndeadBoneShards (some n)) =
      "Burn " ++ toString n ++ " " ++ "***Undead Bone Shards***" ++
        " at the bonfire") ∧
    (formatInstructionByType (.burnUndeadBoneShards none) =
      "Burn all ***Undead Bone Shards*** at the bonfire") ∧
    (formatInstructionByType (.reinforceEstus (some 1)) =
      "Reinforce 1 ***Estus Flask*** by _Andre_") ∧
    (n ≠ 1 → formatInstructionByType (.reinforceEstus (some n)) =
      "Reinforce " ++ toString n ++ " " ++ "***Estus Flasks***" ++
        " by " ++ "_Andre_") ∧
    (formatInstructionByType (.reinforceEstus none) =
      "Reinforce all ***Estus Flasks*** by _Andre_") ∧
    (formatInstructionByType (.killLizards 1 rewards place) =
      "Kill lizard " ++ place ++ " for " ++ mapItems rewards) ∧
    (n ≠ 1 → formatInstructionByType (.killLizards n rewards place) =
      "Kill " ++ (toString n ++ " lizards") ++ " " ++ place ++ " for " ++
        mapItems rewards) ∧
    parseKillLizardsAmount none = 1 := by
  refine ⟨rfl, ?_, rfl, by decide, ?_, by decide, by decide, ?_, by decide,
    ?_, ?_, rfl⟩
  · intro hn
    simp only [formatInstructionByType, AllotQuantity.num.injEq]
    rw [if_neg hn]
    rfl
  · intro hn
    simp only [formatInstructionByType, Option.some.injEq]
    rw [if_neg hn]
    rfl
  · intro hn
    simp only [formatInstructionByType, Option.some.injEq]
    rw [if_neg hn]
    rfl
  · rfl
  · intro hn
    simp only [formatInstructionByType]
    rw [if_neg hn]

/-- Witness for `pluralization_boundary`: the plural branches instantiated
at the amount 0. -/
theorem pluralization_boundary_witness :
    formatInstructionByType (.allotEstus .normal .ashen (.num 0)) =
      "Allot " ++ toString 0 ++ " " ++
        MD.bi (capitalize (EstusKind.normal).text ++ " " ++ "Estus Flasks") ++
        " to " ++
        MD.bi (capitalize (EstusKind.ashen).text ++ " " ++ "Estus Flasks") ∧
    formatInstructionByType (.burnUndeadBoneShards (some 0)) =
      "Burn " ++ toString 0 ++ " " ++ "***Undead Bone Shards***" ++
        " at the bonfire" ∧
    formatInstructionByType (.reinforceEstus (some 0)) =
      "Reinforce " ++ toString 0 ++ " " ++ "***Estus Flasks***" ++
        " by " ++ "_Andre_" ∧
    formatInstructionByType (.killLizards 0 [] "around") =
      "Kill " ++ (toString 0 ++ " lizards") ++ " " ++ "around" ++ " for " ++
        mapItems [] := by
  obtain ⟨-, h2, -, -, h5, -, -, h8, -, -, h11, -⟩ :=
    pluralization_boundary 0 EstusKind.normal EstusKind.ashen [] "around"
  exact ⟨h2 (by decide), h5 (by decide), h8 (by decide), h11 (by decide)⟩

/-- The single instruction of the end-to-end scenario: an allot-estus step
in the Cemetery of Ash, quantity defaulted to `"all"`, hidden when rule 1 is
ignored. -/
def cemeteryAllotInstruction : Instruction :=
  { area := "Cemetery of Ash", comments := [], hideOnIgnoredRules := [1],
    showOnIgnoredRules := [], optional := false, safety := false,
    payload := .allotEstus .normal .ashen (parseAllotQuantity none) }

set_option maxRecDepth 4000 in
/-- C8: for the guide with the single rule `1 ↦ "No upgrades"` and the
single allot-estus instruction hidden on rule 1, formatting with no ignored
rules prints the rule unstruck and the instruction row with its
`Allot all ... Estus Flasks ...` action, while formatting with rule 1
ignored strikes the rule through (it is not removed) and replaces the
instructions table by the italic placeholder. -/
theorem allot_estus_rule_scenario :
    formatRules [(1, "No upgrades")] defaultFormatOptions =
      "## Rules\n\nThe run includes the following restrictions:\n\n1. No upgrades" ∧
    formatRules [(1, "No upgrades")]
        { defaultFormatOptions with ignoredRules := [1] } =
      "## Rules\n\nThe run includes the following restrictions:\n\n1. ~~No upgrades~~" ∧
    formatInstructions [cemeteryAllotInstruction] defaultFormatOptions =
      "## Instructions\n\n" ++
        "| Id  | Area            | Action                                                          |\n" ++
        "| --: | --------------- | --------------------------------------------------------------- |\n" ++
        "|   0 | Cemetery of Ash | Allot all ***Normal Estus Flasks*** to ***Ashen Estus Flasks*** |" ∧
    formatInstructions [cemeteryAllotInstruction]
        { defaultFormatOptions with ignoredRules := [1] } =
      "_There are no instructions_" := by
  refine ⟨rfl, rfl, by decide, rfl⟩

/-- C9: for columns `[Id right, Area left, Action left]` and the single row
`["0", "Firelink Shrine", "**Light** bonfire"]`, the emitted block is
exactly three lines: the header with each title left-padded to the column
width (widths 3, 15, 17 — the maximum of title length, widest cell and the
minimum 3), an alignment-marker line whose right-aligned column marker is a
dash run ending in `:` and whose left-aligned markers are pure dash runs of
the column width, and one data row with the Id cell right-aligned and the
others left-aligned, all enclosed in `| ` / ` |`. -/
theorem table_rendering_concrete :
    tableBlock [⟨"Id", .right⟩, ⟨"Area", .left⟩, ⟨"Action", .left⟩]
        [["0", "Firelink Shrine", "**Light** bonfire"]] =
      "| Id  | Area            | Action            |\n" ++
        "| --: | --------------- | ----------------- |\n" ++
        "|   0 | Firelink Shrine | **Light** bonfire |" ∧
    ((tableBlock [⟨"Id", .right⟩, ⟨"Area", .left⟩, ⟨"Action", .left⟩]
        [["0", "Firelink Shrine", "**Light** bonfire"]]).data.count '\n') = 2 := by
  refine ⟨by decide, by decide⟩

/-- C10: when filtering leaves no visible instruction, `formatInstructions`
returns exactly the italic placeholder `_There are no instructions_`
(no `## Instructions` heading, no table); when the visible list is
non-empty, the output is the `## Instructions` heading followed by a blank
line and the table. -/
theorem no_instructions_placeholder (instructions : List Instruction)
    (options : FormatOptions) :
    MD.i "There are no instructions" = "_There are no instructions_" ∧
    (filterInstructions instructions options = [] →
      formatInstructions instructions options = "_There are no instructions_") ∧
    (filterInstructions instructions options ≠ [] →
      formatInstructions instructions options =
        "## Instructions\n\n" ++
          tableBlock (instructionColumns options)
            (instructionRows instructions options)) := by
  refine ⟨by decide, ?_, ?_⟩
  · intro h
    simp [formatInstructions, h]
    decide
  · intro h
    have hne : (filterInstructions instructions options).isEmpty = false := by
      cases hl : filterInstructions instructions options
      · exact absurd hl h
      · rfl
    unfold formatInstructions
    rw [hne]
    simp only [Bool.false_eq_true, if_false]
    cases hId : options.hideInstructionId <;>
      simp [mdTable, instructionColumns, hId, mdEnd, joinSep]

/-- Witness for `no_instructions_placeholder`: the empty-filter case at the
empty guide and the non-empty case at the one-instruction guide. -/
theorem no_instructions_placeholder_witness :
    formatInstructions [] defaultFormatOptions = "_There are no instructions_" ∧
    formatInstructions [cemeteryAllotInstruction] defaultFormatOptions =
      "## Instructions\n\n" ++
        tableBlock (instructionColumns defaultFormatOptions)
          (instructionRows [cemeteryAllotInstruction] defaultFormatOptions) :=
  ⟨(no_instructions_placeholder [] defaultFormatOptions).2.1 rfl,
   (no_instructions_placeholder [cemeteryAllotInstruction]
      defaultFormatOptions).2.2 (by decide)⟩

/-- Specification-side grouping (from the spec's words): the maximal runs
of adjacent rows sharing an area, each run as its first row plus the
remaining members. -/
def collapseRunsSpec : List Row → List (Row × List Row)
  | [] => []
  | r :: rest =>
    match collapseRunsSpec rest with
    | [] => [(r, [])]
    | (s, g) :: gs =>
      if r.area = s.area then (r, s :: g) :: gs else (r, []) :: (s, g) :: gs

/-- Specification-side fusion of one run: the first member's id and area,
and the members' action lines joined by the blank visual line. -/
def mergeRunSpec (run : Row × List Row) : Row :=
  ⟨run.1.id, run.1.area, joinSep "<br><br>" ((run.1 :: run.2).map Row.action)⟩

lemma joinSep_glue (s a b : String) (l : List String) :
    joinSep s ((a ++ s ++ b) :: l) = a ++ s ++ joinSep s (b :: l) := by
  cases l with
  | nil => simp [joinSep]
  | cons c cs => simp [joinSep, String.append_assoc]

lemma collapseRunsSpec_unfold (r : Row) (rest : List Row) :
    collapseRunsSpec (r :: rest) =
      (match collapseRunsSpec rest with
       | [] => [(r, [])]
       | (s, g) :: gs =>
         if r.area = s.area then (r, s :: g) :: gs
         else (r, []) :: (s, g) :: gs) := rfl

lemma collapseRunsSpec_cons (a : Row) (rest : List Row) :
    ∃ g t, collapseRunsSpec (a :: rest) = (a, g) :: t ∧
      ∀ b : Row, b.area = a.area → collapseRunsSpec (b :: rest) = (b, g) :: t := by
  cases h : collapseRunsSpec rest with
  | nil =>
    refine ⟨[], [], ?_, fun b _ => ?_⟩ <;> rw [collapseRunsSpec_unfold, h]
  | cons p gs =>
    obtain ⟨s, g⟩ := p
    by_cases ha : a.area = s.area
    · refine ⟨s :: g, gs, ?_, fun b hb => ?_⟩
      · rw [collapseRunsSpec_unfold, h]
        simp [ha]
      · rw [collapseRunsSpec_unfold, h]
        rw [← hb] at ha
        simp [ha]
    · refine ⟨[], (s, g) :: gs, ?_, fun b hb => ?_⟩
      · rw [collapseRunsSpec_unfold, h]
        simp [ha]
      · rw [collapseRunsSpec_unfold, h]
        rw [← hb] at ha
        simp [ha]

/-- The collapse loop computes exactly the run-wise fusion: each maximal
run of adjacent same-area rows becomes one merged row. -/
lemma collapseRows_eq_runs (rows : List Row) :
    collapseRows rows = (collapseRunsSpec rows).map mergeRunSpec := by
  induction rows using collapseRows.induct with
  | case1 => simp [collapseRows, collapseRunsSpec]
  | case2 r => simp [collapseRows, collapseRunsSpec, mergeRunSpec, joinSep]
  | case3 r1 r2 rest hEq ih =>
    rw [show collapseRows (r1 :: r2 :: rest) =
      collapseRows (mergeRows r1 r2 :: rest) by simp [collapseRows, hEq], ih]
    obtain ⟨g, t, hm, hgen⟩ := collapseRunsSpec_cons r2 rest
    have hm' : collapseRunsSpec (mergeRows r1 r2 :: rest) =
        (mergeRows r1 r2, g) :: t := hgen _ hEq
    have hr : collapseRunsSpec (r1 :: r2 :: rest) = (r1, r2 :: g) :: t := by
      rw [collapseRunsSpec_unfold, hm]
      simp [hEq]
    rw [hm', hr]
    simp only [List.map_cons, List.cons.injEq]
    refine ⟨?_, trivial⟩
    simp only [mergeRunSpec, mergeRows, List.map_cons]
    rw [joinSep_glue]
    rfl
  | case4 r1 r2 rest hNe ih =>
    rw [show collapseRows (r1 :: r2 :: rest) =
      r1 :: collapseRows (r2 :: rest) by simp [collapseRows, hNe], ih]
    obtain ⟨g, t, hm, -⟩ := collapseRunsSpec_cons r2 rest
    have hr : collapseRunsSpec (r1 :: r2 :: rest) =
        (r1, []) :: (r2, g) :: t := by
      rw [collapseRunsSpec_unfold, hm]
      simp [hNe]
    rw [hr, hm]
    simp only [List.map_cons, List.cons.injEq]
    exact ⟨rfl, trivial⟩

/-- The runs partition the row list in order. -/
lemma collapseRunsSpec_flatten (rows : List Row) :
    ((collapseRunsSpec rows).map (fun run => run.1 :: run.2)).flatten = rows := by
  induction rows with
  | nil => rfl
  | cons r rest ih =>
    rw [collapseRunsSpec_unfold]
    cases h : collapseRunsSpec rest with
    | nil =>
      rw [h] at ih
      simp at ih
      simp [ih]
    | cons p gs =>
      obtain ⟨s, g⟩ := p
      rw [h] at ih
      by_cases ha : r.area = s.area <;> simp [ha] <;> simp at ih <;> exact ih

/-- Every member of a run shares the run head's area. -/
lemma collapseRunsSpec_area (rows : List Row) :
    ∀ run ∈ collapseRunsSpec rows, ∀ r ∈ run.2, r.area = run.1.area := by
  induction rows with
  | nil => simp [collapseRunsSpec]
  | cons r rest ih =>
    rw [collapseRunsSpec_unfold]
    cases h : collapseRunsSpec rest with
    | nil => simp
    | cons p gs =>
      obtain ⟨s, g⟩ := p
      rw [h] at ih
      by_cases ha : r.area = s.area
      · simp only [ha, if_true]
        intro run hrun
        rcases List.mem_cons.mp hrun with hq | hq
        · subst hq
          intro x hx
          rcases List.mem_cons.mp hx with hx | hx
          · simp [hx, ha]
          · have := ih (s, g) (List.mem_cons_self _ _) x hx
            simpa [ha] using this
        · exact ih run (List.mem_cons_of_mem _ hq)
      · simp only [ha, if_false]
        intro run hrun
        rcases List.mem_cons.mp hrun with hq | hq
        · subst hq
          simp
        · exact ih run hq

/-- Runs are maximal: adjacent runs have different areas. -/
lemma collapseRunsSpec_chain (rows : List Row) :
    List.Chain' (fun p q : Row × List Row => p.1.area ≠ q.1.area)
      (collapseRunsSpec rows) := by
  induction rows with
  | nil => simp [collapseRunsSpec]
  | cons r rest ih =>
    rw [collapseRunsSpec_unfold]
    cases h : collapseRunsSpec rest with
    | nil => simp
    | cons p gs =>
      obtain ⟨s, g⟩ := p
      rw [h] at ih
      by_cases ha : r.area = s.area
      · simp only [ha, if_true]
        cases gs with
        | nil => simp
        | cons q t =>
          rw [List.chain'_cons] at ih ⊢
          exact ⟨ha ▸ ih.1, ih.2⟩
      · simp only [ha, if_false]
        rw [List.chain'_cons]
        exact ⟨ha, ih⟩

lemma collapseRows_ne_nil (r : Row) (rest : List Row) :
    collapseRows (r :: rest) ≠ [] := by
  rw [collapseRows_eq_runs]
  obtain ⟨g, t, hm, -⟩ := collapseRunsSpec_cons r rest
  simp [hm]

/-- Collapsing never changes the joined action content of the rows. -/
lemma collapseRows_content (rows : List Row) :
    joinSep "<br><br>" ((collapseRows rows).map Row.action) =
      joinSep "<br><br>" (rows.map Row.action) := by
  induction rows using collapseRows.induct with
  | case1 => simp [collapseRows]
  | case2 r => simp [collapseRows]
  | case3 r1 r2 rest hEq ih =>
    rw [show collapseRows (r1 :: r2 :: rest) =
      collapseRows (mergeRows r1 r2 :: rest) by simp [collapseRows, hEq], ih]
    simp only [List.map_cons, mergeRows]
    rw [joinSep_glue]
    rfl
  | case4 r1 r2 rest hNe ih =>
    rw [show collapseRows (r1 :: r2 :: rest) =
      r1 :: collapseRows (r2 :: rest) by simp [collapseRows, hNe]]
    simp only [List.map_cons]
    cases hc : collapseRows (r2 :: rest) with
    | nil => exact absurd hc (collapseRows_ne_nil r2 rest)
    | cons c cs =>
      rw [show joinSep "<br><br>" (r1.action :: (c :: cs).map Row.action) =
        r1.action ++ "<br><br>" ++ joinSep "<br><br>" ((c :: cs).map Row.action)
        from rfl]
      rw [← hc, ih]
      rfl

/-- Collapsing keeps a subsequence of the original ids (each merged row
keeps its first member's id; no id is invented). -/
lemma collapseRows_ids_sublist (rows : List Row) :
    ((collapseRows rows).map Row.id).Sublist (rows.map Row.id) := by
  induction rows using collapseRows.induct with
  | case1 => simp [collapseRows]
  | case2 r => simp [collapseRows]
  | case3 r1 r2 rest hEq ih =>
    rw [show collapseRows (r1 :: r2 :: rest) =
      collapseRows (mergeRows r1 r2 :: rest) by simp [collapseRows, hEq]]
    refine ih.trans ?_
    simp only [List.map_cons, mergeRows]
    exact (List.sublist_cons_self r2.id (rest.map Row.id)).cons_cons r1.id
  | case4 r1 r2 rest hNe ih =>
    rw [show collapseRows (r1 :: r2 :: rest) =
      r1 :: collapseRows (r2 :: rest) by simp [collapseRows, hNe]]
    simp only [List.map_cons]
    exact ih.cons_cons r1.id

lemma buildRows_ids (instructions : List Instruction) (options : FormatOptions) :
    (buildRows instructions options).map Row.id =
      (List.range instructions.length).map toString := by
  rw [buildRows, List.map_map, ← List.enum_map_fst instructions, List.map_map]
  rfl

/-- C3: the collapse pass equals the run-wise fusion of the maximal runs of
adjacent same-area rows (each merged row keeping the first member's id and
area, its action the members' lines joined by a blank visual line), the
runs partition the rows in their original order, adjacent runs have
different areas (so non-adjacent rows are never merged and order is
preserved), the joined action content is unchanged, and with
`collapseInstructionGroups` enabled `formatInstructions` applies exactly
this pass to the visible rows. -/
theorem collapse_adjacent_same_area (rows : List Row)
    (instructions : List Instruction) (options : FormatOptions) :
    collapseRows rows = (collapseRunsSpec rows).map mergeRunSpec ∧
    ((collapseRunsSpec rows).map (fun run => run.1 :: run.2)).flatten = rows ∧
    (∀ run ∈ collapseRunsSpec rows, ∀ r ∈ run.2, r.area = run.1.area) ∧
    List.Chain' (fun p q : Row × List Row => p.1.area ≠ q.1.area)
      (collapseRunsSpec rows) ∧
    joinSep "<br><br>" ((collapseRows rows).map Row.action) =
      joinSep "<br><br>" (rows.map Row.action) ∧
    (options.collapseInstructionGroups = true →
      instructionRows instructions options =
        (collapseRows (buildRows (filterInstructions instructions options)
          options)).map (rowCells options)) :=
  ⟨collapseRows_eq_runs rows, collapseRunsSpec_flatten rows,
   collapseRunsSpec_area rows, collapseRunsSpec_chain rows,
   collapseRows_content rows, fun h => by simp [instructionRows, h]⟩

/-- Witness for `collapse_adjacent_same_area` with collapsing enabled. -/
theorem collapse_adjacent_same_area_witness :
    instructionRows []
        { defaultFormatOptions with collapseInstructionGroups := true } =
      (collapseRows (buildRows (filterInstructions []
          { defaultFormatOptions with collapseInstructionGroups := true })
          { defaultFormatOptions with collapseInstructionGroups := true })).map
        (rowCells { defaultFormatOptions with collapseInstructionGroups := true }) :=
  (collapse_adjacent_same_area [] []
    { defaultFormatOptions with collapseInstructionGroups := true }).2.2.2.2.2 rfl

/-- C4: the pre-collapse rows carry ids `0 .. n-1` over the visible
(filtered) instruction list, collapsing only keeps a subsequence of those
ids (no renumbering), and when `hideInstructionId` is set the Id column and
the id cells are absent from the emitted table, otherwise present. -/
theorem instruction_id_numbering (instructions : List Instruction)
    (options : FormatOptions) :
    (buildRows (filterInstructions instructions options) options).map Row.id =
      (List.range (filterInstructions instructions options).length).map toString ∧
    ((collapseRows (buildRows (filterInstructions instructions options)
        options)).map Row.id).Sublist
      ((buildRows (filterInstructions instructions options) options).map Row.id) ∧
    (options.hideInstructionId = true →
      instructionColumns options =
        [⟨"Area", Alignment.left⟩, ⟨"Action", Alignment.left⟩] ∧
      instructionRows instructions options =
        (if options.collapseInstructionGroups then
            collapseRows (buildRows (filterInstructions instructions options)
              options)
          else
            buildRows (filterInstructions instructions options) options).map
          (fun r => [r.area, r.action])) ∧
    (options.hideInstructionId = false →
      instructionColumns options =
        [⟨"Id", Alignment.right⟩, ⟨"Area", Alignment.left⟩,
          ⟨"Action", Alignment.left⟩] ∧
      instructionRows instructions options =
        (if options.collapseInstructionGroups then
            collapseRows (buildRows (filterInstructions instructions options)
              options)
          else
            buildRows (filterInstructions instructions options) options).map
          (fun r => [r.id, r.area, r.action])) := by
  refine ⟨buildRows_ids _ _, collapseRows_ids_sublist _, fun h => ⟨?_, ?_⟩,
    fun h => ⟨?_, ?_⟩⟩
  · simp [instructionColumns, h]
  · simp [instructionRows, rowCells, h]
  · simp [instructionColumns, h]
  · simp [instructionRows, rowCells, h]

/-- Witness for `instruction_id_numbering` at both settings of
`hideInstructionId`. -/
theorem instruction_id_numbering_witness :
    (instructionColumns { defaultFormatOptions with hideInstructionId := true } =
      [⟨"Area", Alignment.left⟩, ⟨"Action", Alignment.left⟩]) ∧
    (instructionColumns defaultFormatOptions =
      [⟨"Id", Alignment.right⟩, ⟨"Area", Alignment.left⟩,
        ⟨"Action", Alignment.left⟩]) :=
  ⟨((instruction_id_numbering []
      { defaultFormatOptions with hideInstructionId := true }).2.2.1 rfl).1,
   ((instruction_id_numbering [] defaultFormatOptions).2.2.2 rfl).1⟩

end Guider
